import Mathlib

set_option maxRecDepth 10000

/-!
Shallow embedding of `src/lib.rs` (wasm-game-of-life): Conway's Game of Life
on a fixed 64×64 toroidal grid.

Modelling conventions:
* Rust `u32` row/column/dimension values are modelled as `Nat`.  All arithmetic
  in the source (`row * width + col`, `(row + delta) % height`) stays far below
  `2^32` for the 64×64 grids the program builds, and every claim carries the
  bounds (`row < height`, `col < width`, `len = width*height`) under which no
  wraparound can occur, so plain `Nat` arithmetic is faithful.
* The neighbor counter accumulates into a Rust `u8`; its value is at most 8,
  so `Nat` is faithful there as well.
* `self.cells[idx]` panics when out of bounds in Rust; here `cellAt` reads with
  `List.getD` (default `Dead`).  The in-bounds facts proved below (see the
  safety theorem for the claim about totality) show the default is never
  consulted for well-formed grids, which is exactly the panic-freedom claim.
* `js_sys::Math::random() < 0.5` is an external effect; it is abstracted as an
  injected oracle `rng : Nat → Bool` giving, for linear index `i`, the outcome
  of the comparison `random() < 0.5` for the draw made at that cell.
-/

/-- Cell state, `#[repr(u8)]`: `Dead = 0`, `Alive = 1`. -/
inductive Cell where
  | Dead
  | Alive
deriving DecidableEq, Repr

/-- Numeric value of a cell (`cell as u8` in the source), used for summing. -/
def Cell.toNat : Cell → Nat
  | Cell.Dead => 0
  | Cell.Alive => 1

/-- The `Universe` struct: dimensions plus the flat row-major cell vector. -/
structure Universe where
  width : Nat
  height : Nat
  cells : List Cell
deriving DecidableEq, Repr

namespace Universe

/-- `fn get_index(&self, row, column) -> usize { (row * self.width + column) as usize }`. -/
def get_index (u : Universe) (row column : Nat) : Nat :=
  row * u.width + column

/-- Read `self.cells[idx]`.  The Rust access panics out of bounds; `getD` with
default `Dead` is used here, and the in-bounds theorems below show the default
is unreachable on well-formed grids. -/
def cellAt (u : Universe) (idx : Nat) : Cell :=
  u.cells.getD idx Cell.Dead

/-- `fn live_neighbor_count(&self, row, column) -> u8`: fold over
`[self.height - 1, 0, 1] × [self.width - 1, 0, 1]`, skipping the `(0, 0)`
offset, summing the values of the toroidally wrapped neighbor cells. -/
def live_neighbor_count (u : Universe) (row column : Nat) : Nat :=
  [u.height - 1, 0, 1].foldl (fun count delta_row =>
    [u.width - 1, 0, 1].foldl (fun count delta_col =>
      if delta_row = 0 ∧ delta_col = 0 then count
      else
        let neighbor_row := (row + delta_row) % u.height
        let neighbor_col := (column + delta_col) % u.width
        let idx := u.get_index neighbor_row neighbor_col
        count + (u.cellAt idx).toNat) count) 0

/-- The `match (cell, live_neighbors)` arm of `tick`, with the source's arm
order preserved as a first-match-wins conditional chain. -/
def next_cell (cell : Cell) (live_neighbors : Nat) : Cell :=
  if cell = Cell.Alive ∧ live_neighbors < 2 then Cell.Dead
  else if cell = Cell.Alive ∧ (live_neighbors = 2 ∨ live_neighbors = 3) then Cell.Alive
  else if cell = Cell.Alive ∧ live_neighbors > 3 then Cell.Dead
  else if cell = Cell.Dead ∧ live_neighbors = 3 then Cell.Alive
  else cell

/-- `pub fn tick(&mut self)`: clone the cells into `next`, recompute every
position from the old `self.cells`, then replace `self.cells` with `next`. -/
def tick (u : Universe) : Universe :=
  let next :=
    (List.range u.height).foldl (fun next row =>
      (List.range u.width).foldl (fun next col =>
        let idx := u.get_index row col
        let cell := u.cellAt idx
        let live_neighbors := u.live_neighbor_count row col
        next.set idx (next_cell cell live_neighbors)) next) u.cells
  { u with cells := next }

/-- The hardcoded glider-gun coordinate list of `Universe::new` mode 0,
verbatim from the source. -/
def gliderGunCoords : List (Nat × Nat) :=
  [(6, 1), (6, 2), (7, 1), (7, 2),
   (6, 11), (7, 11), (8, 11),
   (5, 12), (9, 12),
   (4, 13), (10, 13),
   (4, 14), (10, 14),
   (7, 15),
   (5, 16), (9, 16),
   (6, 17), (7, 17), (8, 17),
   (7, 18),
   (4, 21), (5, 21), (6, 21),
   (4, 22), (5, 22), (6, 22),
   (3, 23), (7, 23),
   (2, 25), (3, 25), (7, 25), (8, 25),
   (4, 35), (4, 36), (5, 35), (5, 36)]

/-- `pub fn new(init_state: u32) -> Universe`.  `rng i` abstracts the external
`js_sys::Math::random() < 0.5` outcome for the draw made at linear index `i`
(mode 1 only; the other modes never consult it). -/
def new (init_state : Nat) (rng : Nat → Bool) : Universe :=
  let width : Nat := 64
  let height : Nat := 64
  let helper : Nat → Nat → Nat := fun row col => row * width + col
  let cells : List Cell :=
    if init_state = 0 then
      gliderGunCoords.foldl (fun cs p => cs.set (helper p.1 p.2) Cell.Alive)
        ((List.range (width * height)).map (fun _ => Cell.Dead))
    else if init_state = 1 then
      (List.range (width * height)).map (fun i =>
        if rng i then Cell.Alive else Cell.Dead)
    else
      (List.range (width * height)).map (fun i =>
        if i % 2 = 0 ∨ i % 7 = 0 then Cell.Alive else Cell.Dead)
  { width := width, height := height, cells := cells }

/-- Glyph for one cell in the `Display` impl: `'◻'` for Dead, `'◼'` for Alive. -/
def cellGlyph (c : Cell) : Char :=
  if c = Cell.Dead then '◻' else '◼'

/-- Row-major chunking of the cell vector into rows of `w` cells, modelling
`self.cells.as_slice().chunks(self.width as usize)`.  Rust `chunks` requires a
positive chunk size (the program always passes 64); `w = 0` returns `[]`. -/
def toRows (w : Nat) (l : List Cell) : List (List Cell) :=
  if h : w = 0 ∨ l = [] then []
  else l.take w :: toRows w (l.drop w)
termination_by l.length
decreasing_by
  push_neg at h
  have hw : 0 < w := Nat.pos_of_ne_zero h.1
  have hl : 0 < l.length := List.length_pos.mpr h.2
  simpa using Nat.sub_lt hl hw

/-- `pub fn render(&self) -> String` via the `fmt::Display` impl: for each
width-sized chunk of cells write one glyph per cell then `writeln!` a newline. -/
def render (u : Universe) : String :=
  String.join ((toRows u.width u.cells).map
    (fun line => String.mk (line.map cellGlyph) ++ "\n"))

/-- Iterated `tick`: the grid after `n` generation advances. -/
def tickN : Nat → Universe → Universe
  | 0, u => u
  | n + 1, u => tickN n u.tick

/-- The row-major list of all `(row, col)` pairs visited by `tick`. -/
def pairList (h w : Nat) : List (Nat × Nat) :=
  (List.range h).flatMap (fun r => (List.range w).map (fun c => (r, c)))

/-- The neighbor offsets described by the spec: the nine combinations of
`{height-1, 0, 1} × {width-1, 0, 1}` excluding `(0, 0)`.  This definition is
transcribed from the spec's words, to be compared with the source's
`live_neighbor_count`. -/
def neighborDeltaPairs (h w : Nat) : List (Nat × Nat) :=
  ([h - 1, 0, 1].flatMap (fun dr => [w - 1, 0, 1].map (fun dc => (dr, dc)))).filter
    (fun p => p ≠ (0, 0))

/-- The neighbor sum described by the spec: add the 0/1 values of the cells at
`((row + dr) mod height, (col + dc) mod width)` over `neighborDeltaPairs`.
Transcribed from the spec's words, to be compared with `live_neighbor_count`. -/
def specNeighborSum (u : Universe) (row column : Nat) : Nat :=
  ((neighborDeltaPairs u.height u.width).map
    (fun p => (u.cellAt (u.get_index ((row + p.1) % u.height)
      ((column + p.2) % u.width))).toNat)).sum

/-- Test fixture: a horizontal 3-cell blinker centered on an otherwise empty
5×5 torus (alive at `(2,1)`, `(2,2)`, `(2,3)`). -/
def blinkerH : Universe :=
  { width := 5, height := 5,
    cells := (List.range 25).map (fun i =>
      if i = 11 ∨ i = 12 ∨ i = 13 then Cell.Alive else Cell.Dead) }

/-- Test fixture: the matching vertical 3-cell blinker on the 5×5 torus
(alive at `(1,2)`, `(2,2)`, `(3,2)`). -/
def blinkerV : Universe :=
  { width := 5, height := 5,
    cells := (List.range 25).map (fun i =>
      if i = 7 ∨ i = 12 ∨ i = 17 then Cell.Alive else Cell.Dead) }

end Universe

section FoldSetLemmas

variable {α β : Type}

/-- A fold that only writes via `List.set` preserves the list length. -/
theorem foldl_set_length (l : List α) (next : List β) (f : α → Nat) (g : α → β) :
    (l.foldl (fun acc x => acc.set (f x) (g x)) next).length = next.length := by
  induction l generalizing next with
  | nil => rfl
  | cons a t ih => rw [List.foldl_cons, ih]; exact List.length_set ..

/-- Positions never written by the fold keep their original value. -/
theorem foldl_set_getD_of_ne (l : List α) (next : List β) (f : α → Nat) (g : α → β)
    (j : Nat) (d : β) (hj : ∀ x ∈ l, f x ≠ j) :
    (l.foldl (fun acc x => acc.set (f x) (g x)) next).getD j d = next.getD j d := by
  induction l generalizing next with
  | nil => rfl
  | cons a t ih =>
    rw [List.foldl_cons, ih _ (fun x hx => hj x (List.mem_cons_of_mem a hx))]
    simp [List.getD_eq_getElem?_getD, List.getElem?_set_ne (hj a (List.mem_cons_self a t))]

/-- A position written by the fold ends with the written value, provided every
element hitting the same position writes the same value. -/
theorem foldl_set_getD_of_mem (l : List α) (next : List β) (f : α → Nat) (g : α → β)
    (c : α) (d : β) (hc : c ∈ l)
    (hcoh : ∀ a ∈ l, f a = f c → g a = g c)
    (hlt : f c < next.length) :
    (l.foldl (fun acc x => acc.set (f x) (g x)) next).getD (f c) d = g c := by
  induction l generalizing next c with
  | nil => cases hc
  | cons a t ih =>
    rw [List.foldl_cons]
    by_cases hmem : ∃ x ∈ t, f x = f c
    · obtain ⟨x, hxt, hfx⟩ := hmem
      have hgx : g x = g c := hcoh x (List.mem_cons_of_mem a hxt) hfx
      rw [← hfx, ← hgx]
      refine ih _ x hxt (fun b hbt hfb => ?_) ?_
      · rw [hgx]
        exact hcoh b (List.mem_cons_of_mem a hbt) (hfb.trans hfx)
      · rw [List.length_set, hfx]; exact hlt
    · push_neg at hmem
      rw [foldl_set_getD_of_ne t _ f g _ d (fun x hx => hmem x hx)]
      have hca : c = a := by
        rcases List.mem_cons.mp hc with h | h
        · exact h
        · exact absurd rfl (hmem c h)
      subst hca
      simp [List.getD_eq_getElem?_getD, List.getElem?_set_self (hlt.trans_eq rfl)]

/-- A nested row/column fold is the fold of the row-major list of pairs. -/
theorem foldl_foldl_pairs {γ : Type} (rows : List α) (cols : List β)
    (step : γ → α × β → γ) (init : γ) :
    rows.foldl (fun acc r => cols.foldl (fun acc2 c => step acc2 (r, c)) acc) init
      = (rows.flatMap (fun r => cols.map (fun c => (r, c)))).foldl step init := by
  induction rows generalizing init with
  | nil => rfl
  | cons a t ih => simp [List.flatMap_cons, List.foldl_append, List.foldl_map, ih]

end FoldSetLemmas

/-- Reading any position of a constant-mapped list with the same default
always yields that constant. -/
theorem getD_map_const {α β : Type} (l : List α) (b : β) (j : Nat) :
    (l.map (fun _ => b)).getD j b = b := by
  rw [List.getD_eq_getElem?_getD, List.getElem?_map]
  cases l[j]? <;> rfl

/-- Row-major indexing is injective on in-range columns. -/
theorem row_col_index_inj {w r1 c1 r2 c2 : Nat} (h1 : c1 < w) (h2 : c2 < w)
    (h : r1 * w + c1 = r2 * w + c2) : r1 = r2 ∧ c1 = c2 := by
  have e1 : (r1 * w + c1) % w = c1 := by
    rw [Nat.mul_comm r1 w, Nat.mul_add_mod]; exact Nat.mod_eq_of_lt h1
  have e2 : (r2 * w + c2) % w = c2 := by
    rw [Nat.mul_comm r2 w, Nat.mul_add_mod]; exact Nat.mod_eq_of_lt h2
  have hcc : c1 = c2 := by rw [← e1, ← e2, h]
  subst hcc
  have hww : 0 < w := by omega
  have hrr : r1 * w = r2 * w := by omega
  exact ⟨Nat.eq_of_mul_eq_mul_right hww hrr, rfl⟩

/-- In-range row-major indices are below the grid size. -/
theorem row_col_index_lt {w h r c : Nat} (hr : r < h) (hc : c < w) :
    r * w + c < w * h := by
  have h1 : r * w + c < (r + 1) * w := by
    rw [Nat.succ_mul]; omega
  have h2 : (r + 1) * w ≤ h * w := Nat.mul_le_mul_right w hr
  have h3 : h * w = w * h := Nat.mul_comm h w
  omega

namespace Universe

theorem mem_pairList {h w : Nat} {p : Nat × Nat} :
    p ∈ pairList h w ↔ p.1 < h ∧ p.2 < w := by
  cases p with
  | mk r c =>
    simp only [pairList, List.mem_flatMap, List.mem_map, List.mem_range, Prod.mk.injEq]
    constructor
    · rintro ⟨a, ha, b, hb, rfl, rfl⟩; exact ⟨ha, hb⟩
    · rintro ⟨hr, hc⟩; exact ⟨r, hr, c, hc, rfl, rfl⟩

theorem tick_cells_eq (u : Universe) :
    u.tick.cells = (pairList u.height u.width).foldl
      (fun acc p => acc.set (u.get_index p.1 p.2)
        (next_cell (u.cellAt (u.get_index p.1 p.2))
          (u.live_neighbor_count p.1 p.2))) u.cells := by
  exact foldl_foldl_pairs (List.range u.height) (List.range u.width)
    (fun acc3 (p : Nat × Nat) => acc3.set (u.get_index p.1 p.2)
      (next_cell (u.cellAt (u.get_index p.1 p.2))
        (u.live_neighbor_count p.1 p.2))) u.cells

/-- The grid after `tick`, read at an in-range position, is `next_cell` of the
old cell and its live neighbor count, both taken from the pre-tick snapshot. -/
theorem tick_cellAt (u : Universe) (hwf : u.cells.length = u.width * u.height)
    (row col : Nat) (hr : row < u.height) (hc : col < u.width) :
    u.tick.cellAt (u.get_index row col)
      = next_cell (u.cellAt (u.get_index row col)) (u.live_neighbor_count row col) := by
  have hmem : ((row, col) : Nat × Nat) ∈ pairList u.height u.width :=
    mem_pairList.mpr ⟨hr, hc⟩
  have hcoh : ∀ p ∈ pairList u.height u.width,
      (fun q : Nat × Nat => u.get_index q.1 q.2) p
        = (fun q : Nat × Nat => u.get_index q.1 q.2) (row, col) →
      (fun q : Nat × Nat => next_cell (u.cellAt (u.get_index q.1 q.2))
        (u.live_neighbor_count q.1 q.2)) p
        = (fun q : Nat × Nat => next_cell (u.cellAt (u.get_index q.1 q.2))
          (u.live_neighbor_count q.1 q.2)) (row, col) := by
    intro p hp hfp
    have hpw := mem_pairList.mp hp
    obtain ⟨hra, hrc⟩ := row_col_index_inj hpw.2 hc hfp
    simp only [hra, hrc]
  have hlt : (fun q : Nat × Nat => u.get_index q.1 q.2) ((row, col) : Nat × Nat)
      < u.cells.length := by
    simpa [get_index, hwf] using row_col_index_lt hr hc
  have hmain := foldl_set_getD_of_mem (pairList u.height u.width) u.cells
    (fun q : Nat × Nat => u.get_index q.1 q.2)
    (fun q : Nat × Nat => next_cell (u.cellAt (u.get_index q.1 q.2))
      (u.live_neighbor_count q.1 q.2))
    ((row, col) : Nat × Nat) Cell.Dead hmem hcoh hlt
  show u.tick.cells.getD (u.get_index row col) Cell.Dead = _
  rw [tick_cells_eq]
  exact hmain

theorem tick_cells_length (u : Universe) : u.tick.cells.length = u.cells.length := by
  rw [tick_cells_eq]
  exact foldl_set_length (pairList u.height u.width) u.cells
    (fun p : Nat × Nat => u.get_index p.1 p.2)
    (fun p : Nat × Nat => next_cell (u.cellAt (u.get_index p.1 p.2))
      (u.live_neighbor_count p.1 p.2))

theorem tick_width (u : Universe) : u.tick.width = u.width := rfl

theorem tick_height (u : Universe) : u.tick.height = u.height := rfl

theorem tickN_width (n : Nat) (u : Universe) : (tickN n u).width = u.width := by
  induction n generalizing u with
  | zero => rfl
  | succ n ih => exact ih u.tick

theorem tickN_height (n : Nat) (u : Universe) : (tickN n u).height = u.height := by
  induction n generalizing u with
  | zero => rfl
  | succ n ih => exact ih u.tick

theorem tickN_cells_length (n : Nat) (u : Universe) :
    (tickN n u).cells.length = u.cells.length := by
  induction n generalizing u with
  | zero => rfl
  | succ n ih => exact (ih u.tick).trans u.tick_cells_length

theorem new_cells_length (mode : Nat) (rng : Nat → Bool) :
    (new mode rng).cells.length = 64 * 64 := by
  by_cases h0 : mode = 0
  · subst h0
    have h2 : ((List.range (64 * 64)).map (fun _ : Nat => Cell.Dead)).length = 64 * 64 := by
      rw [List.length_map, List.length_range]
    show (gliderGunCoords.foldl (fun cs p => cs.set (p.1 * 64 + p.2) Cell.Alive)
      ((List.range (64 * 64)).map (fun _ => Cell.Dead))).length = 64 * 64
    exact (foldl_set_length gliderGunCoords ((List.range (64 * 64)).map (fun _ => Cell.Dead))
      (fun p : Nat × Nat => p.1 * 64 + p.2) (fun _ => Cell.Alive)).trans h2
  · by_cases h1 : mode = 1
    · subst h1
      simp [new]
    · simp [new, h0, h1]

theorem new_width (mode : Nat) (rng : Nat → Bool) : (new mode rng).width = 64 := rfl

theorem new_height (mode : Nat) (rng : Nat → Bool) : (new mode rng).height = 64 := rfl

theorem toRows_eq (w : Nat) (hw : 0 < w) (h : Nat) :
    ∀ l : List Cell, l.length = w * h →
      toRows w l = (List.range h).map (fun r => (l.drop (r * w)).take w) := by
  induction h with
  | zero =>
    intro l hl
    have hl0 : l = [] := List.eq_nil_of_length_eq_zero (by omega)
    subst hl0
    rw [toRows]
    simp
  | succ h ih =>
    intro l hl
    have hlen : l.length = w * h + w := by rw [hl, Nat.mul_succ]
    have hne : l ≠ [] := by
      intro h0
      rw [h0] at hlen
      simp at hlen
      omega
    rw [toRows, dif_neg (by push_neg; exact ⟨Nat.pos_iff_ne_zero.mp hw, hne⟩)]
    rw [ih (l.drop w) (by rw [List.length_drop, hlen]; omega)]
    rw [List.range_succ_eq_map, List.map_cons, List.map_map]
    congr 1
    · rw [Nat.zero_mul, List.drop_zero]
    · congr 1
      funext r
      show ((l.drop w).drop (r * w)).take w = (l.drop ((r + 1) * w)).take w
      rw [List.drop_drop]
      have harith : w + r * w = (r + 1) * w := by ring
      rw [harith]

end Universe

open Universe

/-- C1: For every well-formed grid (`len(cells) = width * height`), `tick`
computes each cell's next state from a snapshot of the current generation by
the rule table in priority order: an Alive cell with fewer than 2 live
neighbors becomes Dead; an Alive cell with 2 or 3 live neighbors stays Alive;
an Alive cell with more than 3 live neighbors becomes Dead; a Dead cell with
exactly 3 live neighbors becomes Alive; any other cell (a Dead cell with a
neighbor count other than 3) keeps its current state. -/
theorem tick_follows_rule_table (u : Universe)
    (hwf : u.cells.length = u.width * u.height)
    (row col : Nat) (hr : row < u.height) (hc : col < u.width) :
    (u.cellAt (u.get_index row col) = Cell.Alive → u.live_neighbor_count row col < 2 →
      u.tick.cellAt (u.get_index row col) = Cell.Dead) ∧
    (u.cellAt (u.get_index row col) = Cell.Alive →
      (u.live_neighbor_count row col = 2 ∨ u.live_neighbor_count row col = 3) →
      u.tick.cellAt (u.get_index row col) = Cell.Alive) ∧
    (u.cellAt (u.get_index row col) = Cell.Alive → 3 < u.live_neighbor_count row col →
      u.tick.cellAt (u.get_index row col) = Cell.Dead) ∧
    (u.cellAt (u.get_index row col) = Cell.Dead → u.live_neighbor_count row col = 3 →
      u.tick.cellAt (u.get_index row col) = Cell.Alive) ∧
    (u.cellAt (u.get_index row col) = Cell.Dead → u.live_neighbor_count row col ≠ 3 →
      u.tick.cellAt (u.get_index row col) = u.cellAt (u.get_index row col)) := by
  have ht := u.tick_cellAt hwf row col hr hc
  refine ⟨fun h1 h2 => ?_, fun h1 h2 => ?_, fun h1 h2 => ?_, fun h1 h2 => ?_,
    fun h1 h2 => ?_⟩ <;> rw [ht]
  · simp [next_cell, h1, h2]
  · rcases h2 with h2 | h2 <;> simp [next_cell, h1, h2]
  · have h3 : ¬ u.live_neighbor_count row col < 2 := by omega
    have h4 : ¬ (u.live_neighbor_count row col = 2 ∨ u.live_neighbor_count row col = 3) := by
      omega
    simp [next_cell, h1, h2, h3, h4]
  · simp [next_cell, h1, h2]
  · simp [next_cell, h1, h2]

/-- Witness for the rule-table theorem: on the concrete 5×5 blinker fixture,
the center cell is Alive with 2 live neighbors and stays Alive after `tick`. -/
theorem tick_follows_rule_table_witness :
    blinkerH.tick.cellAt (blinkerH.get_index 2 2) = Cell.Alive :=
  (tick_follows_rule_table blinkerH (by decide) 2 2 (by decide) (by decide)).2.1
    (by decide) (by decide)

/-- C3: For every mode value, the grid returned by `new(mode)` satisfies
`len(cells) = width * height`; for every well-formed grid the invariant still
holds after `tick`; and it holds for all reachable grids (any number of ticks
after any construction). -/
theorem length_invariant_reachable :
    (∀ mode rng, (new mode rng).cells.length = (new mode rng).width * (new mode rng).height) ∧
    (∀ u : Universe, u.cells.length = u.width * u.height →
      u.tick.cells.length = u.tick.width * u.tick.height) ∧
    (∀ mode rng n, (tickN n (new mode rng)).cells.length
      = (tickN n (new mode rng)).width * (tickN n (new mode rng)).height) := by
  refine ⟨fun mode rng => ?_, fun u h => ?_, fun mode rng n => ?_⟩
  · rw [new_cells_length, new_width, new_height]
  · rw [tick_cells_length, tick_width, tick_height]; exact h
  · rw [tickN_cells_length, tickN_width, tickN_height, new_cells_length, new_width, new_height]

/-- Witness for the invariant theorem: the length invariant transfers through
one `tick` of the concrete 5×5 blinker fixture. -/
theorem length_invariant_reachable_witness :
    blinkerH.tick.cells.length = blinkerH.tick.width * blinkerH.tick.height :=
  length_invariant_reachable.2.1 blinkerH (by decide)

/-- C10: `tick` modifies only the `cells` field: width and height after `tick`
equal their values before, and they remain fixed at 64×64 for the entire
lifetime of any grid constructed by `new` (any mode, any number of ticks). -/
theorem tick_preserves_dimensions :
    (∀ u : Universe, u.tick.width = u.width ∧ u.tick.height = u.height) ∧
    (∀ mode rng, (new mode rng).width = 64 ∧ (new mode rng).height = 64) ∧
    (∀ mode rng n, (tickN n (new mode rng)).width = 64 ∧
      (tickN n (new mode rng)).height = 64) := by
  refine ⟨fun u => ⟨rfl, rfl⟩, fun mode rng => ⟨rfl, rfl⟩, fun mode rng n => ⟨?_, ?_⟩⟩
  · rw [tickN_width, new_width]
  · rw [tickN_height, new_height]

/-- C2: For every well-formed grid and every in-range `(row, column)`, the
live neighbor count equals the sum of the 0/1 cell values at the positions
`((row + dr) mod height, (col + dc) mod width)` for `(dr, dc)` ranging over
`{height-1, 0, 1} × {width-1, 0, 1}` excluding `(0, 0)` (`specNeighborSum`,
transcribed from the spec); for grids with at least 2 rows and 2 columns these
are exactly 8 delta pairs and the count is the explicit 8-term sum; in
particular the neighbor positions of cell `(0, 0)` include `(height-1,
width-1)`, `(height-1, 0)` and `(0, width-1)` (toroidal wraparound). -/
theorem live_neighbor_count_spec (u : Universe)
    (hwf : u.cells.length = u.width * u.height)
    (row col : Nat) (hr : row < u.height) (hc : col < u.width) :
    u.live_neighbor_count row col = specNeighborSum u row col ∧
    (1 < u.height → 1 < u.width →
      (neighborDeltaPairs u.height u.width).length = 8 ∧
      u.live_neighbor_count row col =
        (u.cellAt (u.get_index ((row + (u.height - 1)) % u.height)
          ((col + (u.width - 1)) % u.width))).toNat +
        (u.cellAt (u.get_index ((row + (u.height - 1)) % u.height)
          ((col + 0) % u.width))).toNat +
        (u.cellAt (u.get_index ((row + (u.height - 1)) % u.height)
          ((col + 1) % u.width))).toNat +
        (u.cellAt (u.get_index ((row + 0) % u.height)
          ((col + (u.width - 1)) % u.width))).toNat +
        (u.cellAt (u.get_index ((row + 0) % u.height)
          ((col + 1) % u.width))).toNat +
        (u.cellAt (u.get_index ((row + 1) % u.height)
          ((col + (u.width - 1)) % u.width))).toNat +
        (u.cellAt (u.get_index ((row + 1) % u.height)
          ((col + 0) % u.width))).toNat +
        (u.cellAt (u.get_index ((row + 1) % u.height)
          ((col + 1) % u.width))).toNat ∧
      (((u.height - 1, u.width - 1) : Nat × Nat)
          ∈ (neighborDeltaPairs u.height u.width).map
            (fun p => ((0 + p.1) % u.height, (0 + p.2) % u.width)) ∧
        ((u.height - 1, 0) : Nat × Nat)
          ∈ (neighborDeltaPairs u.height u.width).map
            (fun p => ((0 + p.1) % u.height, (0 + p.2) % u.width)) ∧
        ((0, u.width - 1) : Nat × Nat)
          ∈ (neighborDeltaPairs u.height u.width).map
            (fun p => ((0 + p.1) % u.height, (0 + p.2) % u.width)))) := by
  refine ⟨?_, fun hh2 hw2 => ?_⟩
  · by_cases hh : u.height - 1 = 0 <;> by_cases hww : u.width - 1 = 0 <;>
      simp [Universe.live_neighbor_count, Universe.specNeighborSum,
        Universe.neighborDeltaPairs, hh, hww, List.filter, List.foldl] <;> omega
  · have hh : u.height - 1 ≠ 0 := Nat.sub_ne_zero_of_lt hh2
    have hww : u.width - 1 ≠ 0 := Nat.sub_ne_zero_of_lt hw2
    have hmh : (u.height - 1) % u.height = u.height - 1 := Nat.mod_eq_of_lt (by omega)
    have hmw : (u.width - 1) % u.width = u.width - 1 := Nat.mod_eq_of_lt (by omega)
    refine ⟨by simp [Universe.neighborDeltaPairs, List.filter, hh, hww], ?_, ?_⟩
    · simp [Universe.live_neighbor_count, List.foldl, hh, hww]
    · simp [Universe.neighborDeltaPairs, List.filter, hh, hww, hmh, hmw, Nat.zero_mod]

/-- Witness for the neighbor-count theorem on the 5×5 blinker fixture. -/
theorem live_neighbor_count_spec_witness :
    blinkerH.live_neighbor_count 2 2 = specNeighborSum blinkerH 2 2 :=
  (live_neighbor_count_spec blinkerH (by decide) 2 2 (by decide) (by decide)).1

/-- C9: `tick` is total over every well-formed grid: under the precondition
`len(cells) = width * height`, every cell-array index it computes (via
`get_index` on modulo-reduced row/column values, including the direct read at
`(row, col)`) is in bounds, so the out-of-range access branch is unreachable
and the operation cannot fail. -/
theorem tick_indices_in_bounds (u : Universe)
    (hwf : u.cells.length = u.width * u.height)
    (row col : Nat) (hr : row < u.height) (hc : col < u.width) :
    u.get_index row col < u.cells.length ∧
    ∀ dr ∈ [u.height - 1, 0, 1], ∀ dc ∈ [u.width - 1, 0, 1],
      u.get_index ((row + dr) % u.height) ((col + dc) % u.width) < u.cells.length := by
  have hh : 0 < u.height := Nat.lt_of_le_of_lt (Nat.zero_le row) hr
  have hw : 0 < u.width := Nat.lt_of_le_of_lt (Nat.zero_le col) hc
  constructor
  · simpa [Universe.get_index, hwf] using row_col_index_lt hr hc
  · intro dr _ dc _
    have h1 : (row + dr) % u.height < u.height := Nat.mod_lt _ hh
    have h2 : (col + dc) % u.width < u.width := Nat.mod_lt _ hw
    simpa [Universe.get_index, hwf] using row_col_index_lt h1 h2

/-- Witness for the bounds theorem at a concrete grid and position. -/
theorem tick_indices_in_bounds_witness :
    blinkerH.get_index 1 1 < blinkerH.cells.length :=
  (tick_indices_in_bounds blinkerH (by decide) 1 1 (by decide) (by decide)).1

/-- C4: `new(mode)` never fails for any mode: every mode, including
unrecognized ones (any mode other than 0 and 1), yields a valid grid, and
unrecognized modes produce the deterministic parity pattern in which the cell
at linear index `i` is Alive iff `i` is divisible by 2 or by 7. -/
theorem new_unrecognized_mode_default (mode : Nat) (rng : Nat → Bool)
    (h0 : mode ≠ 0) (h1 : mode ≠ 1) :
    (new mode rng).cells.length = (new mode rng).width * (new mode rng).height ∧
    (∀ i, i < 64 * 64 → (new mode rng).cells.getD i Cell.Dead
      = if i % 2 = 0 ∨ i % 7 = 0 then Cell.Alive else Cell.Dead) := by
  constructor
  · rw [new_cells_length, new_width, new_height]
  · intro i hi
    have hc : (new mode rng).cells = (List.range (64 * 64)).map (fun j =>
        if j % 2 = 0 ∨ j % 7 = 0 then Cell.Alive else Cell.Dead) := by
      simp [Universe.new, h0, h1]
    rw [hc, List.getD_eq_getElem?_getD, List.getElem?_map, List.getElem?_range hi]
    rfl

/-- Witness for the default-mode theorem: mode 2, index 0. -/
theorem new_unrecognized_mode_default_witness :
    (new 2 (fun _ => false)).cells.getD 0 Cell.Dead
      = if 0 % 2 = 0 ∨ 0 % 7 = 0 then Cell.Alive else Cell.Dead :=
  (new_unrecognized_mode_default 2 (fun _ => false) (by decide) (by decide)).2 0 (by decide)

/-- C5: `new(0)` returns the grid that is all Dead except that exactly the 36
hardcoded `(row, column)` coordinates of the glider-gun fixture list are
Alive, reproduced verbatim. -/
theorem new_mode_zero_glider_gun (rng : Nat → Bool) (row col : Nat)
    (hr : row < 64) (hc : col < 64) :
    gliderGunCoords.length = 36 ∧
    (new 0 rng).cells.getD (row * 64 + col) Cell.Dead
      = if (row, col) ∈ gliderGunCoords then Cell.Alive else Cell.Dead := by
  refine ⟨rfl, ?_⟩
  have hcells : (new 0 rng).cells = gliderGunCoords.foldl
      (fun cs p => cs.set (p.1 * 64 + p.2) Cell.Alive)
      ((List.range (64 * 64)).map (fun _ => Cell.Dead)) := rfl
  rw [hcells]
  by_cases hmem : (row, col) ∈ gliderGunCoords
  · rw [if_pos hmem]
    have hlt : (fun q : Nat × Nat => q.1 * 64 + q.2) ((row, col) : Nat × Nat)
        < ((List.range (64 * 64)).map (fun _ : Nat => Cell.Dead)).length := by
      show row * 64 + col < ((List.range (64 * 64)).map (fun _ : Nat => Cell.Dead)).length
      rw [List.length_map, List.length_range]
      exact row_col_index_lt hr hc
    exact foldl_set_getD_of_mem gliderGunCoords
      ((List.range (64 * 64)).map (fun _ => Cell.Dead))
      (fun q : Nat × Nat => q.1 * 64 + q.2) (fun _ => Cell.Alive)
      ((row, col) : Nat × Nat) Cell.Dead hmem (fun p _ _ => rfl) hlt
  · rw [if_neg hmem]
    have hbound : ∀ p ∈ gliderGunCoords, p.1 < 64 ∧ p.2 < 64 := by decide
    have hne : ∀ p ∈ gliderGunCoords,
        (fun q : Nat × Nat => q.1 * 64 + q.2) p ≠ row * 64 + col := by
      intro p hp heq
      obtain ⟨hpe, hce⟩ := row_col_index_inj (hbound p hp).2 hc heq
      have hp2 : p = ((row, col) : Nat × Nat) := by
        cases p
        simp only [Prod.mk.injEq]
        exact ⟨hpe, hce⟩
      exact hmem (hp2 ▸ hp)
    exact (foldl_set_getD_of_ne gliderGunCoords
      ((List.range (64 * 64)).map (fun _ => Cell.Dead))
      (fun q : Nat × Nat => q.1 * 64 + q.2) (fun _ => Cell.Alive)
      (row * 64 + col) Cell.Dead hne).trans (getD_map_const _ Cell.Dead _)

/-- Witness for the glider-gun theorem at coordinate `(6, 1)`. -/
theorem new_mode_zero_glider_gun_witness :
    (new 0 (fun _ => false)).cells.getD (6 * 64 + 1) Cell.Dead
      = if ((6, 1) : Nat × Nat) ∈ gliderGunCoords then Cell.Alive else Cell.Dead :=
  (new_mode_zero_glider_gun (fun _ => false) 6 1 (by decide) (by decide)).2

/-- C7: `render()` produces a multi-line string with exactly one line per row
of the grid (height lines), each cell mapped to one of two fixed glyphs
(`'◻'` for Dead, `'◼'` for Alive via `cellGlyph`), each row terminated by
exactly one line break, with no other leading or trailing content: the output
is exactly the join of the per-row glyph strings each followed by one `"\n"`. -/
theorem render_one_line_per_row (u : Universe)
    (hwf : u.cells.length = u.width * u.height) (hw : 0 < u.width) :
    u.render = String.join ((List.range u.height).map (fun r =>
      String.mk (((u.cells.drop (r * u.width)).take u.width).map cellGlyph) ++ "\n")) := by
  show String.join ((toRows u.width u.cells).map
    (fun line => String.mk (line.map cellGlyph) ++ "\n")) = _
  rw [toRows_eq u.width hw u.height u.cells hwf, List.map_map]
  rfl

/-- Witness for the render theorem on the concrete 5×5 blinker fixture. -/
theorem render_one_line_per_row_witness :
    blinkerH.render = String.join ((List.range blinkerH.height).map (fun r =>
      String.mk (((blinkerH.cells.drop (r * blinkerH.width)).take blinkerH.width).map cellGlyph)
        ++ "\n")) :=
  render_one_line_per_row blinkerH (by decide) (by decide)

/-- C8: For mode 0 and for any default-mode value, `new(mode)` followed by
`render()` is deterministic: the result does not depend on the injected
random source, so any two runs produce the identical, fixed text output. -/
theorem new_render_deterministic :
    (∀ rng1 rng2 : Nat → Bool, (new 0 rng1).render = (new 0 rng2).render) ∧
    (∀ mode : Nat, mode ≠ 0 → mode ≠ 1 →
      ∀ rng1 rng2 : Nat → Bool, (new mode rng1).render = (new mode rng2).render) := by
  constructor
  · intro rng1 rng2
    rfl
  · intro mode h0 h1 rng1 rng2
    have hu : new mode rng1 = new mode rng2 := by
      simp [Universe.new, h0, h1]
    rw [hu]

/-- Witness for the determinism theorem: two distinct oracles, modes 0 and 2. -/
theorem new_render_deterministic_witness :
    (new 0 (fun _ => false)).render = (new 0 (fun _ => true)).render ∧
    (new 2 (fun _ => false)).render = (new 2 (fun _ => true)).render :=
  ⟨new_render_deterministic.1 (fun _ => false) (fun _ => true),
   new_render_deterministic.2 2 (by decide) (by decide) (fun _ => false) (fun _ => true)⟩

/-- C6: On an otherwise empty 5×5 torus, the 3-cell blinker alternates between
its horizontal and vertical orientations on every tick, and two consecutive
ticks return the grid to its original configuration. -/
theorem blinker_oscillates :
    blinkerH.tick = blinkerV ∧ blinkerV.tick = blinkerH ∧
    blinkerH.tick.tick = blinkerH ∧ blinkerV.tick.tick = blinkerV := by
  refine ⟨by decide, by decide, by decide, by decide⟩
